import Mathlib

/-!
Verification of the bounded producer-consumer buffers in this repository.

Two variants of the `Buffer` class are embedded:

* `SingleDemo.Buffer` — the single-condition-variable variant
  (`push`, blocking `pop`, non-blocking `try_pop`, `size`, `empty`).
* `MultiDemo.Buffer` — the dual-condition variant with an explicit
  shutdown flag (`push`, `pop`, `shutdown`, `size`, `empty`).

The embedding is a shallow one: a buffer is its observable state (the
FIFO list of queued strings, plus the shutdown flag in the dual
variant), each member function is a state-passing Lean function on that
state, and each condition-variable wait is modelled by its predicate:
a call can complete exactly when the predicate holds, and the body of
the member function runs in a state satisfying the predicate.  Step
relations (`Step`, guarded by the wait predicates) describe the states
reachable through the public interface.
-/

/-- Maximum buffer size, `static const size_t MAX_SIZE = 10` in both variants. -/
def MAX_SIZE : Nat := 10

namespace SingleDemo

/-- State of the single-condition-variable `Buffer`: the queued items in
FIFO order (head of the list = front of the queue).  The mutex and the
condition variable carry no data and are modelled by the wait
predicates below. -/
structure Buffer where
  data_ : List String
  deriving Repr, DecidableEq

namespace Buffer

/-- The freshly constructed buffer: an empty queue. -/
def init : Buffer := ⟨[]⟩

/-- Wait predicate of `push`: `data_.size() < MAX_SIZE`.  The call can
complete (without blocking further) exactly when this holds. -/
def pushWait (b : Buffer) : Prop := b.data_.length < MAX_SIZE

instance (b : Buffer) : Decidable (pushWait b) := by
  unfold pushWait; infer_instance

/-- Body of `push` after the wait: append the item at the tail and
notify (notification carries no state). -/
def push (b : Buffer) (item : String) : Buffer := ⟨b.data_ ++ [item]⟩

/-- Wait predicate of `pop`: `!data_.empty()`. -/
def popWait (b : Buffer) : Prop := b.data_ ≠ []

instance (b : Buffer) : Decidable (popWait b) := by
  unfold popWait; infer_instance

/-- Body of `pop` after the wait: if the queue is non-empty, remove the
front item and return it (the C++ `return true` path is `some item`);
otherwise fall through to `return false`, modelled as `none`. -/
def pop (b : Buffer) : Option String × Buffer :=
  match b.data_ with
  | [] => (none, b)
  | x :: xs => (some x, ⟨xs⟩)

/-- `try_pop`: same body as `pop` but with no wait at all — if the queue
is empty it returns `false` (`none`) immediately. -/
def try_pop (b : Buffer) : Option String × Buffer :=
  match b.data_ with
  | [] => (none, b)
  | x :: xs => (some x, ⟨xs⟩)

/-- `size()`: snapshot of the queue length. -/
def size (b : Buffer) : Nat := b.data_.length

/-- `empty()`: snapshot emptiness test. -/
def empty (b : Buffer) : Bool := b.data_.isEmpty

/-- One completed call through the public interface.  `push` and `pop`
are guarded by their wait predicates (their bodies run only in states
where the wait has completed); `try_pop` has no guard; `size` and
`empty` do not change the state. -/
inductive Step : Buffer → Buffer → Prop
  | push (b : Buffer) (item : String) (h : pushWait b) : Step b (b.push item)
  | pop (b : Buffer) (h : popWait b) : Step b (b.pop).2
  | try_pop (b : Buffer) : Step b (b.try_pop).2

/-- States reachable from the freshly constructed buffer. -/
def Reachable (b : Buffer) : Prop := Relation.ReflTransGen Step init b

end Buffer

/-- Sequential trace operations on the single-signal buffer: the calls a
single producer and a single consumer issue, in program order. -/
inductive Op where
  | push (item : String)
  | pop
  deriving Repr, DecidableEq

/-- Run a list of operations; collect the items returned by successful
`pop` calls, in order. -/
def runOps : Buffer → List Op → List String × Buffer
  | b, [] => ([], b)
  | b, Op.push item :: ops => runOps (b.push item) ops
  | b, Op.pop :: ops =>
      match b.pop with
      | (none, b') => runOps b' ops
      | (some x, b') =>
          let r := runOps b' ops
          (x :: r.1, r.2)

/-- The items a trace pushes, in order. -/
def pushedItems : List Op → List String
  | [] => []
  | Op.push item :: ops => item :: pushedItems ops
  | Op.pop :: ops => pushedItems ops

/-- A trace is enabled from `b` when every call's wait predicate holds
at the moment the call runs: each `push` finds the queue below capacity
and each `pop` finds it non-empty (so no call blocks). -/
def opsEnabled : Buffer → List Op → Bool
  | _, [] => true
  | b, Op.push item :: ops =>
      decide (Buffer.pushWait b) && opsEnabled (b.push item) ops
  | b, Op.pop :: ops =>
      decide (Buffer.popWait b) && opsEnabled (b.pop).2 ops

end SingleDemo

namespace MultiDemo

/-- State of the dual-condition-variable `Buffer`: the queued items in
FIFO order plus the `std::atomic<bool> shutdown_` flag (initially
`false`).  The two condition variables carry no data and are modelled
by the wait predicates below. -/
structure Buffer where
  data_ : List String
  shutdown_ : Bool
  deriving Repr, DecidableEq

namespace Buffer

/-- The freshly constructed buffer: empty queue, shutdown flag `false`. -/
def init : Buffer := ⟨[], false⟩

/-- Wait predicate of `push`:
`data_.size() < MAX_SIZE || shutdown_.load()`. -/
def pushWait (b : Buffer) : Prop :=
  b.data_.length < MAX_SIZE ∨ b.shutdown_ = true

instance (b : Buffer) : Decidable (pushWait b) := by
  unfold pushWait; infer_instance

/-- Body of `push` after the wait: if shutting down, return without
adding (the item is discarded); otherwise append at the tail and notify
one `not_empty_` waiter. -/
def push (b : Buffer) (item : String) : Buffer :=
  if b.shutdown_ then b else ⟨b.data_ ++ [item], b.shutdown_⟩

/-- Wait predicate of `pop`: `!data_.empty() || shutdown_.load()`. -/
def popWait (b : Buffer) : Prop :=
  b.data_ ≠ [] ∨ b.shutdown_ = true

instance (b : Buffer) : Decidable (popWait b) := by
  unfold popWait; infer_instance

/-- Body of `pop` after the wait: if the queue is empty and shutdown is
set, `return false` (`none`); if the queue is non-empty, remove and
return the front item (`return true`); the trailing `return false` is
kept as the final `none` case. -/
def pop (b : Buffer) : Option String × Buffer :=
  if b.data_.isEmpty && b.shutdown_ then (none, b)
  else
    match b.data_ with
    | [] => (none, b)
    | x :: xs => (some x, ⟨xs, b.shutdown_⟩)

/-- `shutdown()`: store `true` into the flag under the lock, then wake
all waiters on both condition variables (the wake itself carries no
state). -/
def shutdown (b : Buffer) : Buffer := ⟨b.data_, true⟩

/-- `size()`: snapshot of the queue length. -/
def size (b : Buffer) : Nat := b.data_.length

/-- `empty()`: snapshot emptiness test. -/
def empty (b : Buffer) : Bool := b.data_.isEmpty

/-- One completed call through the public interface of the dual-signal
buffer, with `push`/`pop` guarded by their wait predicates. -/
inductive Step : Buffer → Buffer → Prop
  | push (b : Buffer) (item : String) (h : pushWait b) : Step b (b.push item)
  | pop (b : Buffer) (h : popWait b) : Step b (b.pop).2
  | shutdown (b : Buffer) : Step b b.shutdown

/-- States reachable from the freshly constructed buffer. -/
def Reachable (b : Buffer) : Prop := Relation.ReflTransGen Step init b

/-- Push a whole list of items in order (left to right). -/
def pushList (b : Buffer) (items : List String) : Buffer :=
  items.foldl push b

/-- Perform `n` consecutive `pop` calls and collect each call's result
(`some item` for a successful pop, `none` for "no item"). -/
def popN : Buffer → Nat → List (Option String) × Buffer
  | b, 0 => ([], b)
  | b, n + 1 =>
      let p := b.pop
      let r := popN p.2 n
      (p.1 :: r.1, r.2)

end Buffer

end MultiDemo

/-!
Helper lemmas shared between the claim theorems.
-/

namespace MultiDemo

theorem Buffer.push_preserves_shutdown (b : Buffer) (item : String) :
    (Buffer.push b item).shutdown_ = b.shutdown_ := by
  unfold Buffer.push
  split <;> rfl

theorem Buffer.pop_preserves_shutdown (b : Buffer) :
    (Buffer.pop b).2.shutdown_ = b.shutdown_ := by
  unfold Buffer.pop
  split
  · rfl
  · split <;> rfl

theorem Buffer.pop_isSome_iff (b : Buffer) :
    ((Buffer.pop b).1.isSome = true) ↔ b.data_ ≠ [] := by
  rcases b with ⟨data, sd⟩
  cases data <;> cases sd <;> simp [Buffer.pop]

theorem Buffer.pop_length_of_isSome (b : Buffer)
    (h : (Buffer.pop b).1.isSome = true) :
    (Buffer.pop b).2.data_.length + 1 = b.data_.length := by
  rcases b with ⟨data, sd⟩
  cases data with
  | nil => cases sd <;> simp [Buffer.pop] at h
  | cons x xs => cases sd <;> simp [Buffer.pop]

theorem Buffer.pop_none_state (b : Buffer) (h : (Buffer.pop b).1 = none) :
    (Buffer.pop b).2 = b := by
  rcases b with ⟨data, sd⟩
  cases data with
  | nil => cases sd <;> simp [Buffer.pop]
  | cons x xs => cases sd <;> simp [Buffer.pop] at h

end MultiDemo

/-- C1: in the dual-signal variant, a `push` performed after `shutdown()`
returns without enqueuing: the state (contents and size) is unchanged
and the item is discarded; moreover the wait predicate of `push` holds
in every shutdown state, so the call completes without blocking
indefinitely. -/
theorem C1_push_after_shutdown_discards (b : MultiDemo.Buffer) (item : String)
    (h : b.shutdown_ = true) :
    MultiDemo.Buffer.push b item = b ∧
    (MultiDemo.Buffer.push b item).data_ = b.data_ ∧
    MultiDemo.Buffer.size (MultiDemo.Buffer.push b item) = MultiDemo.Buffer.size b ∧
    MultiDemo.Buffer.pushWait b := by
  have heq : MultiDemo.Buffer.push b item = b := by
    unfold MultiDemo.Buffer.push
    simp [h]
  exact ⟨heq, by rw [heq], by rw [heq], Or.inr h⟩

/-- Witness for C1 at the concrete state `⟨["a"], true⟩` with item `"c"`. -/
theorem C1_witness :
    (MultiDemo.Buffer.mk ["a"] true).shutdown_ = true ∧
    (MultiDemo.Buffer.push ⟨["a"], true⟩ "c" = ⟨["a"], true⟩ ∧
     (MultiDemo.Buffer.push ⟨["a"], true⟩ "c").data_ =
       (MultiDemo.Buffer.mk ["a"] true).data_ ∧
     MultiDemo.Buffer.size (MultiDemo.Buffer.push ⟨["a"], true⟩ "c") =
       MultiDemo.Buffer.size ⟨["a"], true⟩ ∧
     MultiDemo.Buffer.pushWait ⟨["a"], true⟩) :=
  ⟨rfl, C1_push_after_shutdown_discards ⟨["a"], true⟩ "c" rfl⟩

/-- C2: in the dual-signal variant, whenever `pop`'s wait predicate holds
(the call completes), the call fails (`none`, i.e. `return false`)
exactly when the queue is empty and shutdown is set; on failure the
state is unchanged, and on a non-empty queue it removes and returns the
head item. -/
theorem C2_pop_fails_iff_empty_and_shutdown (b : MultiDemo.Buffer)
    (h : MultiDemo.Buffer.popWait b) :
    ((MultiDemo.Buffer.pop b).1 = none ↔ b.data_ = [] ∧ b.shutdown_ = true) ∧
    ((MultiDemo.Buffer.pop b).1 = none → (MultiDemo.Buffer.pop b).2 = b) ∧
    (∀ x xs, b.data_ = x :: xs →
      MultiDemo.Buffer.pop b = (some x, ⟨xs, b.shutdown_⟩)) := by
  refine ⟨?_, MultiDemo.Buffer.pop_none_state b, ?_⟩
  · rcases b with ⟨data, sd⟩
    cases data <;> cases sd <;>
      simp [MultiDemo.Buffer.pop, MultiDemo.Buffer.popWait] at h ⊢
  · intro x xs hd
    rcases b with ⟨data, sd⟩
    cases hd
    cases sd <;> simp [MultiDemo.Buffer.pop]

/-- Witness for C2 at the empty shutdown state and via its head-item
clause at `⟨["a"], false⟩`. -/
theorem C2_witness :
    MultiDemo.Buffer.popWait ⟨([] : List String), true⟩ ∧
    (((MultiDemo.Buffer.pop ⟨([] : List String), true⟩).1 = none ↔
        (MultiDemo.Buffer.mk [] true).data_ = [] ∧
        (MultiDemo.Buffer.mk [] true).shutdown_ = true) ∧
     ((MultiDemo.Buffer.pop ⟨([] : List String), true⟩).1 = none →
        (MultiDemo.Buffer.pop ⟨([] : List String), true⟩).2 = ⟨[], true⟩) ∧
     (∀ x xs, (MultiDemo.Buffer.mk [] true).data_ = x :: xs →
        MultiDemo.Buffer.pop ⟨([] : List String), true⟩ =
          (some x, ⟨xs, (MultiDemo.Buffer.mk [] true).shutdown_⟩))) :=
  ⟨Or.inr rfl, C2_pop_fails_iff_empty_and_shutdown ⟨[], true⟩ (Or.inr rfl)⟩

/-- C6: in the single-signal variant, `try_pop` is non-blocking: on an
empty queue it returns "no item" immediately and leaves the state
unchanged, and on any state its result is exactly that of `pop`'s body
(remove and return the head item). -/
theorem C6_try_pop_nonblocking (b : SingleDemo.Buffer) :
    (b.data_ = [] → SingleDemo.Buffer.try_pop b = (none, b)) ∧
    SingleDemo.Buffer.try_pop b = SingleDemo.Buffer.pop b := by
  constructor
  · intro h
    rcases b with ⟨data⟩
    cases h
    rfl
  · rcases b with ⟨data⟩
    cases data <;> rfl

/-- Witness for C6: the empty-queue clause at `⟨[]⟩` and the
agreement-with-`pop` clause at `⟨["a", "b"]⟩`. -/
theorem C6_witness :
    SingleDemo.Buffer.try_pop ⟨([] : List String)⟩ = (none, ⟨[]⟩) ∧
    SingleDemo.Buffer.try_pop ⟨["a", "b"]⟩ = SingleDemo.Buffer.pop ⟨["a", "b"]⟩ :=
  ⟨(C6_try_pop_nonblocking ⟨[]⟩).1 rfl, (C6_try_pop_nonblocking ⟨["a", "b"]⟩).2⟩

/-- C9: in the single-signal variant, whenever `pop`'s wait predicate
holds while the lock is held (the queue is non-empty), the body takes
the successful branch: it returns the head item and `true`; the final
`return false` branch is unreachable. -/
theorem C9_pop_success_branch (b : SingleDemo.Buffer)
    (h : SingleDemo.Buffer.popWait b) :
    ∃ x xs, b.data_ = x :: xs ∧ SingleDemo.Buffer.pop b = (some x, ⟨xs⟩) := by
  rcases b with ⟨data⟩
  cases data with
  | nil => exact absurd rfl h
  | cons x xs => exact ⟨x, xs, rfl, rfl⟩

/-- Witness for C9 at the concrete state `⟨["a"]⟩`. -/
theorem C9_witness :
    SingleDemo.Buffer.popWait ⟨["a"]⟩ ∧
    ∃ x xs, (SingleDemo.Buffer.mk ["a"]).data_ = x :: xs ∧
      SingleDemo.Buffer.pop ⟨["a"]⟩ = (some x, ⟨xs⟩) :=
  ⟨by simp [SingleDemo.Buffer.popWait],
   C9_pop_success_branch ⟨["a"]⟩ (by simp [SingleDemo.Buffer.popWait])⟩

/-- C10: in the dual-signal variant, `shutdown()` modifies only the
shutdown flag: the stored item sequence (hence its order and length) is
identical before and after the call. -/
theorem C10_shutdown_frame (b : MultiDemo.Buffer) :
    (MultiDemo.Buffer.shutdown b).data_ = b.data_ ∧
    MultiDemo.Buffer.size (MultiDemo.Buffer.shutdown b) = MultiDemo.Buffer.size b ∧
    MultiDemo.Buffer.empty (MultiDemo.Buffer.shutdown b) = MultiDemo.Buffer.empty b ∧
    (MultiDemo.Buffer.shutdown b).shutdown_ = true :=
  ⟨rfl, rfl, rfl, rfl⟩

namespace MultiDemo

theorem Buffer.step_preserves_shutdown {b b' : Buffer} (h : Buffer.Step b b')
    (hs : b.shutdown_ = true) : b'.shutdown_ = true := by
  cases h with
  | push item _ => rw [Buffer.push_preserves_shutdown]; exact hs
  | pop _ => rw [Buffer.pop_preserves_shutdown]; exact hs
  | shutdown => rfl

end MultiDemo

/-- C7: in the dual-signal variant, the shutdown flag is monotonic: it
is `false` in the freshly constructed buffer, `shutdown()` sets it to
`true`, and along any sequence of interface calls, once the flag is
`true` it stays `true`. -/
theorem C7_shutdown_flag_monotonic :
    MultiDemo.Buffer.init.shutdown_ = false ∧
    (∀ b : MultiDemo.Buffer, (MultiDemo.Buffer.shutdown b).shutdown_ = true) ∧
    (∀ b b' : MultiDemo.Buffer,
      Relation.ReflTransGen MultiDemo.Buffer.Step b b' →
      b.shutdown_ = true → b'.shutdown_ = true) := by
  refine ⟨rfl, fun _ => rfl, fun b b' h hs => ?_⟩
  induction h with
  | refl => exact hs
  | tail _ hstep ih => exact MultiDemo.Buffer.step_preserves_shutdown hstep ih

/-- Witness for C7: a concrete two-call chain (a discarded `push` then a
`pop`) starting from the shutdown state `⟨["a"], true⟩` keeps the flag
`true`. -/
theorem C7_witness :
    ((MultiDemo.Buffer.pop (MultiDemo.Buffer.push ⟨["a"], true⟩ "c")).2).shutdown_ =
      true :=
  C7_shutdown_flag_monotonic.2.2 ⟨["a"], true⟩ _
    (Relation.ReflTransGen.tail
      (Relation.ReflTransGen.single
        (MultiDemo.Buffer.Step.push ⟨["a"], true⟩ "c" (Or.inr rfl)))
      (MultiDemo.Buffer.Step.pop (MultiDemo.Buffer.push ⟨["a"], true⟩ "c")
        (Or.inr (by rw [MultiDemo.Buffer.push_preserves_shutdown]))))
    rfl

namespace SingleDemo

theorem Buffer.singleStep_preserves_bound {b b' : Buffer} (h : Buffer.Step b b')
    (hb : b.data_.length ≤ MAX_SIZE) : b'.data_.length ≤ MAX_SIZE := by
  cases h with
  | push item hw =>
      unfold Buffer.pushWait at hw
      simp only [Buffer.push, List.length_append, List.length_singleton]
      omega
  | pop hw =>
      rcases b with ⟨data⟩
      cases data with
      | nil => exact hb
      | cons x xs => simp [Buffer.pop] at hb ⊢; omega
  | try_pop =>
      rcases b with ⟨data⟩
      cases data with
      | nil => exact hb
      | cons x xs => simp [Buffer.try_pop] at hb ⊢; omega

end SingleDemo

namespace MultiDemo

theorem Buffer.pop_length_le (b : Buffer) :
    (Buffer.pop b).2.data_.length ≤ b.data_.length := by
  rcases b with ⟨data, sd⟩
  cases data <;> cases sd <;> simp [Buffer.pop]

theorem Buffer.multiStep_preserves_bound {b b' : Buffer} (h : Buffer.Step b b')
    (hb : b.data_.length ≤ MAX_SIZE) : b'.data_.length ≤ MAX_SIZE := by
  cases h with
  | push item hw =>
      unfold Buffer.push
      split
      · exact hb
      · rcases hw with hlt | hsd
        · simp only [List.length_append, List.length_singleton]
          omega
        · simp_all
  | pop hw => exact le_trans (Buffer.pop_length_le b) hb
  | shutdown => exact hb

end MultiDemo

/-- C4: for every state of either variant reachable through the public
interface, `0 ≤ size ≤ MAX_SIZE`: each guarded operation preserves the
bound and `push` never pushes the length past `MAX_SIZE`. -/
theorem C4_capacity_invariant :
    (∀ b : SingleDemo.Buffer, SingleDemo.Buffer.Reachable b →
      0 ≤ SingleDemo.Buffer.size b ∧ SingleDemo.Buffer.size b ≤ MAX_SIZE) ∧
    (∀ b : MultiDemo.Buffer, MultiDemo.Buffer.Reachable b →
      0 ≤ MultiDemo.Buffer.size b ∧ MultiDemo.Buffer.size b ≤ MAX_SIZE) := by
  constructor
  · intro b h
    refine ⟨Nat.zero_le _, ?_⟩
    induction h with
    | refl => simp [SingleDemo.Buffer.init, SingleDemo.Buffer.size, MAX_SIZE]
    | tail _ hstep ih => exact SingleDemo.Buffer.singleStep_preserves_bound hstep ih
  · intro b h
    refine ⟨Nat.zero_le _, ?_⟩
    induction h with
    | refl => simp [MultiDemo.Buffer.init, MultiDemo.Buffer.size, MAX_SIZE]
    | tail _ hstep ih => exact MultiDemo.Buffer.multiStep_preserves_bound hstep ih

/-- Witness for C4 at the states reached by one `push` from each
freshly constructed buffer. -/
theorem C4_witness :
    SingleDemo.Buffer.Reachable (SingleDemo.Buffer.push SingleDemo.Buffer.init "a") ∧
    (0 ≤ SingleDemo.Buffer.size (SingleDemo.Buffer.push SingleDemo.Buffer.init "a") ∧
      SingleDemo.Buffer.size (SingleDemo.Buffer.push SingleDemo.Buffer.init "a") ≤
        MAX_SIZE) ∧
    MultiDemo.Buffer.Reachable (MultiDemo.Buffer.push MultiDemo.Buffer.init "b") ∧
    (0 ≤ MultiDemo.Buffer.size (MultiDemo.Buffer.push MultiDemo.Buffer.init "b") ∧
      MultiDemo.Buffer.size (MultiDemo.Buffer.push MultiDemo.Buffer.init "b") ≤
        MAX_SIZE) :=
  have h1 : SingleDemo.Buffer.Reachable
      (SingleDemo.Buffer.push SingleDemo.Buffer.init "a") :=
    Relation.ReflTransGen.single
      (SingleDemo.Buffer.Step.push SingleDemo.Buffer.init "a" (by decide))
  have h2 : MultiDemo.Buffer.Reachable
      (MultiDemo.Buffer.push MultiDemo.Buffer.init "b") :=
    Relation.ReflTransGen.single
      (MultiDemo.Buffer.Step.push MultiDemo.Buffer.init "b" (Or.inl (by decide)))
  ⟨h1, C4_capacity_invariant.1 _ h1, h2, C4_capacity_invariant.2 _ h2⟩

namespace SingleDemo

theorem runOps_conservation (ops : List Op) (b : Buffer) :
    (runOps b ops).1 ++ (runOps b ops).2.data_ = b.data_ ++ pushedItems ops := by
  induction ops generalizing b with
  | nil => simp [runOps, pushedItems]
  | cons op ops ih =>
      cases op with
      | push item =>
          simp only [runOps, pushedItems]
          rw [ih]
          simp [Buffer.push]
      | pop =>
          rcases b with ⟨data⟩
          cases data with
          | nil =>
              simp only [runOps, pushedItems, Buffer.pop]
              exact ih ⟨[]⟩
          | cons x xs =>
              simp only [runOps, pushedItems, Buffer.pop]
              rw [List.cons_append, ih ⟨xs⟩]
              rfl

end SingleDemo

/-- C5: single producer, single consumer, no shutdown: for any
interleaving of `push` calls (carrying the items of `items` in program
order) and `pop` calls, in which every call's wait predicate holds when
it runs and the buffer is fully drained at the end, the successful
`pop`s return exactly `items`, in order — FIFO, no loss, no
duplication. -/
theorem C5_fifo_exactly_once (items : List String) (ops : List SingleDemo.Op)
    (hpush : SingleDemo.pushedItems ops = items)
    (hen : SingleDemo.opsEnabled SingleDemo.Buffer.init ops = true)
    (hdrain : (SingleDemo.runOps SingleDemo.Buffer.init ops).2.data_ = []) :
    (SingleDemo.runOps SingleDemo.Buffer.init ops).1 = items := by
  have h := SingleDemo.runOps_conservation ops SingleDemo.Buffer.init
  rw [hdrain, hpush] at h
  simpa [SingleDemo.Buffer.init] using h

/-- Witness for C5: the interleaved trace
`push "a"; push "b"; pop; push "c"; pop; pop` returns
`["a", "b", "c"]`. -/
theorem C5_witness :
    SingleDemo.pushedItems
        [SingleDemo.Op.push "a", SingleDemo.Op.push "b", SingleDemo.Op.pop,
         SingleDemo.Op.push "c", SingleDemo.Op.pop, SingleDemo.Op.pop] =
      ["a", "b", "c"] ∧
    SingleDemo.opsEnabled SingleDemo.Buffer.init
        [SingleDemo.Op.push "a", SingleDemo.Op.push "b", SingleDemo.Op.pop,
         SingleDemo.Op.push "c", SingleDemo.Op.pop, SingleDemo.Op.pop] = true ∧
    (SingleDemo.runOps SingleDemo.Buffer.init
        [SingleDemo.Op.push "a", SingleDemo.Op.push "b", SingleDemo.Op.pop,
         SingleDemo.Op.push "c", SingleDemo.Op.pop, SingleDemo.Op.pop]).2.data_ =
      [] ∧
    (SingleDemo.runOps SingleDemo.Buffer.init
        [SingleDemo.Op.push "a", SingleDemo.Op.push "b", SingleDemo.Op.pop,
         SingleDemo.Op.push "c", SingleDemo.Op.pop, SingleDemo.Op.pop]).1 =
      ["a", "b", "c"] :=
  ⟨by decide, by decide, by decide,
   C5_fifo_exactly_once ["a", "b", "c"] _ (by decide) (by decide) (by decide)⟩

namespace MultiDemo

/-- With the shutdown flag still `false`, each `push` of `pushList`
takes the enqueuing branch: pushing `items` onto queue contents `l`
yields contents `l ++ items`. -/
theorem Buffer.pushList_not_shutdown (items : List String) (l : List String) :
    Buffer.pushList ⟨l, false⟩ items = ⟨l ++ items, false⟩ := by
  induction items generalizing l with
  | nil => simp [Buffer.pushList]
  | cons x xs ih =>
      simp only [Buffer.pushList, List.foldl_cons] at ih ⊢
      have hpush : Buffer.push ⟨l, false⟩ x = ⟨l ++ [x], false⟩ := rfl
      rw [hpush, ih]
      simp

/-- In a shutdown state with contents `items`, `items.length + 1`
consecutive `pop` calls first return each item in FIFO order, then
"no item". -/
theorem Buffer.popN_succ (b : Buffer) (n : Nat) :
    Buffer.popN b (n + 1) =
      ((Buffer.pop b).1 :: (Buffer.popN (Buffer.pop b).2 n).1,
       (Buffer.popN (Buffer.pop b).2 n).2) := rfl

theorem Buffer.popN_drain_shutdown (items : List String) :
    Buffer.popN ⟨items, true⟩ (items.length + 1) =
      (items.map some ++ [none], ⟨[], true⟩) := by
  induction items with
  | nil => rfl
  | cons x xs ih =>
      have hpop : Buffer.pop ⟨x :: xs, true⟩ = (some x, ⟨xs, true⟩) := rfl
      rw [List.length_cons, Buffer.popN_succ, hpop]
      simp [ih]

/-- Every `push` of `pushList` completes without blocking (its wait
predicate holds when it runs). -/
def pushListEnabled : Buffer → List String → Bool
  | _, [] => true
  | b, item :: rest =>
      decide (Buffer.pushWait b) && pushListEnabled (Buffer.push b item) rest

theorem Buffer.pushListEnabled_of_room (items : List String) (l : List String)
    (h : l.length + items.length ≤ MAX_SIZE) :
    pushListEnabled ⟨l, false⟩ items = true := by
  induction items generalizing l with
  | nil => rfl
  | cons x xs ih =>
      simp only [pushListEnabled, Bool.and_eq_true, decide_eq_true_eq]
      simp only [List.length_cons] at h
      constructor
      · exact Or.inl (show l.length < MAX_SIZE by omega)
      · have hpush : Buffer.push ⟨l, false⟩ x = ⟨l ++ [x], false⟩ := rfl
        rw [hpush]
        apply ih
        have hlen : (l ++ [x]).length = l.length + 1 := by simp
        rw [hlen]
        omega

end MultiDemo

/-- C3: push `K < MAX_SIZE` items into a fresh dual-signal buffer (each
push completes without blocking), call `shutdown()`, push one more item
(discarded: the size stays `K`), then pop `K + 1` times: the first `K`
pops return exactly the pushed items in FIFO order and the last pop
returns "no item" from the empty shutdown state, whose `pop` wait
predicate holds, so it does not block. -/
theorem C3_shutdown_drains_fifo (items : List String) (extra : String)
    (h : items.length < MAX_SIZE) :
    MultiDemo.pushListEnabled MultiDemo.Buffer.init items = true ∧
    MultiDemo.Buffer.size
        (MultiDemo.Buffer.push
          (MultiDemo.Buffer.shutdown
            (MultiDemo.Buffer.pushList MultiDemo.Buffer.init items)) extra) =
      items.length ∧
    MultiDemo.Buffer.popN
        (MultiDemo.Buffer.push
          (MultiDemo.Buffer.shutdown
            (MultiDemo.Buffer.pushList MultiDemo.Buffer.init items)) extra)
        (items.length + 1) =
      (items.map some ++ [none], ⟨[], true⟩) ∧
    MultiDemo.Buffer.popWait ⟨([] : List String), true⟩ := by
  have hlist : MultiDemo.Buffer.pushList MultiDemo.Buffer.init items =
      ⟨items, false⟩ := by
    have := MultiDemo.Buffer.pushList_not_shutdown items []
    simpa [MultiDemo.Buffer.init] using this
  have hstate : MultiDemo.Buffer.push
      (MultiDemo.Buffer.shutdown
        (MultiDemo.Buffer.pushList MultiDemo.Buffer.init items)) extra =
      ⟨items, true⟩ := by
    rw [hlist]
    rfl
  refine ⟨?_, ?_, ?_, Or.inr rfl⟩
  · exact MultiDemo.Buffer.pushListEnabled_of_room items []
      (by simp only [List.length_nil, Nat.zero_add]; exact le_of_lt h)
  · rw [hstate]
    rfl
  · rw [hstate]
    exact MultiDemo.Buffer.popN_drain_shutdown items

/-- Witness for C3: the spec's concrete scenario — push `"a"`, `"b"`,
shutdown, push `"c"` (discarded), then three pops return `"a"`, `"b"`,
"no item". -/
theorem C3_witness :
    (["a", "b"] : List String).length < MAX_SIZE ∧
    (MultiDemo.pushListEnabled MultiDemo.Buffer.init ["a", "b"] = true ∧
     MultiDemo.Buffer.size
         (MultiDemo.Buffer.push
           (MultiDemo.Buffer.shutdown
             (MultiDemo.Buffer.pushList MultiDemo.Buffer.init ["a", "b"])) "c") =
       (["a", "b"] : List String).length ∧
     MultiDemo.Buffer.popN
         (MultiDemo.Buffer.push
           (MultiDemo.Buffer.shutdown
             (MultiDemo.Buffer.pushList MultiDemo.Buffer.init ["a", "b"])) "c")
         ((["a", "b"] : List String).length + 1) =
       ((["a", "b"] : List String).map some ++ [none], ⟨[], true⟩) ∧
     MultiDemo.Buffer.popWait ⟨([] : List String), true⟩) :=
  ⟨by decide, C3_shutdown_drains_fifo ["a", "b"] "c" (by decide)⟩

namespace MultiDemo

/-- Post-shutdown system state of the multi demo (`main` after
`running.store(false); shared_buffer.shutdown()`): the shared buffer
plus the number of producer and consumer threads that have not yet
terminated.  A producer's remaining work is its current loop iteration:
one `push` (discarded under shutdown), after which `running_.load()` is
`false` and `produce` returns.  A consumer's loop
(`while (running_.load() || buffer_.pop(data))`) with `running` false
repeats one `pop` per iteration: a successful `pop` keeps it looping,
a failed `pop` makes `consume` return. -/
structure Sys where
  buf : Buffer
  activeProds : Nat
  activeCons : Nat
  deriving Repr, DecidableEq

/-- Interleaved post-shutdown scheduler steps: any still-active worker
may run its next buffer call.  Each call's wait predicate holds in
every shutdown state, so every step is a completed call, not a blocked
wait. -/
inductive SysStep : Sys → Sys → Prop
  | prodFinish (s : Sys) (item : String) (h : 0 < s.activeProds) :
      SysStep s ⟨Buffer.push s.buf item, s.activeProds - 1, s.activeCons⟩
  | consPop (s : Sys) (h : 0 < s.activeCons)
      (h2 : (Buffer.pop s.buf).1.isSome = true) :
      SysStep s ⟨(Buffer.pop s.buf).2, s.activeProds, s.activeCons⟩
  | consFinish (s : Sys) (h : 0 < s.activeCons)
      (h2 : (Buffer.pop s.buf).1 = none) :
      SysStep s ⟨s.buf, s.activeProds, s.activeCons - 1⟩

/-- Remaining work: queued items still to drain plus workers still
active.  Every post-shutdown step strictly decreases it. -/
def Sys.pending (s : Sys) : Nat :=
  s.buf.data_.length + s.activeProds + s.activeCons

theorem SysStep.preserves_shutdown {s s' : Sys} (h : SysStep s s')
    (hs : s.buf.shutdown_ = true) : s'.buf.shutdown_ = true := by
  cases h with
  | prodFinish item hp => rw [Buffer.push_preserves_shutdown]; exact hs
  | consPop hc h2 => rw [Buffer.pop_preserves_shutdown]; exact hs
  | consFinish hc h2 => exact hs

theorem SysStep.pending_decreases {s s' : Sys} (h : SysStep s s')
    (hs : s.buf.shutdown_ = true) : Sys.pending s' < Sys.pending s := by
  cases h with
  | prodFinish item hp =>
      have hpush : Buffer.push s.buf item = s.buf := by
        unfold Buffer.push
        simp [hs]
      simp only [Sys.pending, hpush]
      omega
  | consPop hc h2 =>
      have hlen := Buffer.pop_length_of_isSome s.buf h2
      simp only [Sys.pending]
      omega
  | consFinish hc h2 =>
      simp only [Sys.pending]
      omega

theorem Sys.stuck_implies_all_done (s : Sys) (hterm : ∀ s', ¬ SysStep s s') :
    s.activeProds = 0 ∧ s.activeCons = 0 := by
  constructor
  · by_contra hne
    exact hterm _ (SysStep.prodFinish s "x" (Nat.pos_of_ne_zero hne))
  · by_contra hne
    have hc : 0 < s.activeCons := Nat.pos_of_ne_zero hne
    cases hsome : (Buffer.pop s.buf).1 with
    | none => exact hterm _ (SysStep.consFinish s hc hsome)
    | some x =>
        exact hterm _ (SysStep.consPop s hc (by rw [hsome]; rfl))

theorem sysRtg_shutdown {s0 s : Sys}
    (h : Relation.ReflTransGen SysStep s0 s)
    (h0 : s0.buf.shutdown_ = true) : s.buf.shutdown_ = true := by
  induction h with
  | refl => exact h0
  | tail _ hstep ih => exact SysStep.preserves_shutdown hstep ih

end MultiDemo

/-- C8: in the multi demo, once the run-flag is cleared and
`shutdown()` has been called (shutdown flag true), from any system
state with 3 active producers and 2 active consumers: in every reachable
state both wait predicates hold, so no worker can block in a wait;
every scheduler step strictly decreases the remaining work, so every
execution reaches, within `Sys.pending` steps, a state with no step
left; and in any such stuck state every one of the 5 worker threads has
terminated (all joins complete). -/
theorem C8_all_workers_terminate (s0 : MultiDemo.Sys)
    (h0 : s0.buf.shutdown_ = true)
    (hp : s0.activeProds = 3) (hc : s0.activeCons = 2) :
    (∀ s : MultiDemo.Sys, Relation.ReflTransGen MultiDemo.SysStep s0 s →
      MultiDemo.Buffer.pushWait s.buf ∧ MultiDemo.Buffer.popWait s.buf) ∧
    (∀ s s' : MultiDemo.Sys, Relation.ReflTransGen MultiDemo.SysStep s0 s →
      MultiDemo.SysStep s s' →
      MultiDemo.Sys.pending s' < MultiDemo.Sys.pending s) ∧
    (∀ s : MultiDemo.Sys, Relation.ReflTransGen MultiDemo.SysStep s0 s →
      (∀ s', ¬ MultiDemo.SysStep s s') →
      s.activeProds = 0 ∧ s.activeCons = 0) := by
  refine ⟨fun s hr => ?_, fun s s' hr hstep => ?_, fun s _ hterm => ?_⟩
  · have hs := MultiDemo.sysRtg_shutdown hr h0
    exact ⟨Or.inr hs, Or.inr hs⟩
  · exact MultiDemo.SysStep.pending_decreases hstep
      (MultiDemo.sysRtg_shutdown hr h0)
  · exact MultiDemo.Sys.stuck_implies_all_done s hterm

/-- Witness for C8 at the concrete state `⟨⟨["a"], true⟩, 3, 2⟩`: the
wait predicates hold there, and a first producer step strictly
decreases the remaining work. -/
theorem C8_witness :
    ((⟨⟨["a"], true⟩, 3, 2⟩ : MultiDemo.Sys).buf.shutdown_ = true ∧
     (⟨⟨["a"], true⟩, 3, 2⟩ : MultiDemo.Sys).activeProds = 3 ∧
     (⟨⟨["a"], true⟩, 3, 2⟩ : MultiDemo.Sys).activeCons = 2) ∧
    (MultiDemo.Buffer.pushWait (⟨⟨["a"], true⟩, 3, 2⟩ : MultiDemo.Sys).buf ∧
     MultiDemo.Buffer.popWait (⟨⟨["a"], true⟩, 3, 2⟩ : MultiDemo.Sys).buf) ∧
    MultiDemo.Sys.pending
        ⟨MultiDemo.Buffer.push (⟨⟨["a"], true⟩, 3, 2⟩ : MultiDemo.Sys).buf "x",
         (⟨⟨["a"], true⟩, 3, 2⟩ : MultiDemo.Sys).activeProds - 1,
         (⟨⟨["a"], true⟩, 3, 2⟩ : MultiDemo.Sys).activeCons⟩ <
      MultiDemo.Sys.pending (⟨⟨["a"], true⟩, 3, 2⟩ : MultiDemo.Sys) :=
  ⟨⟨rfl, rfl, rfl⟩,
   (C8_all_workers_terminate ⟨⟨["a"], true⟩, 3, 2⟩ rfl rfl rfl).1
     ⟨⟨["a"], true⟩, 3, 2⟩ Relation.ReflTransGen.refl,
   (C8_all_workers_terminate ⟨⟨["a"], true⟩, 3, 2⟩ rfl rfl rfl).2.1
     ⟨⟨["a"], true⟩, 3, 2⟩ _ Relation.ReflTransGen.refl
     (MultiDemo.SysStep.prodFinish ⟨⟨["a"], true⟩, 3, 2⟩ "x" (by decide))⟩
